import Mathlib

/-!
Shallow embedding of the process lifecycle supervisor of
`src/server.js` (class `MinecraftCrossplayServer`), together with proofs
about its state machine.  Mutable instance fields become a record
`SupState`; each event handler of the source becomes a pure state
transformer; JavaScript `setTimeout` timers become pending deadlines
carried in the state and fired by explicit events; writes to the child
process stdin and kill signals are logged in the state so that theorems
can talk about them.
-/

namespace MCServer

/-- Lifecycle state, the four string values `this.serverStatus` takes in
`src/server.js` (`offline`, `starting`, `online`, `stopping`). -/
inductive Status
  | offline
  | starting
  | online
  | stopping
deriving DecidableEq

/-- String rendering of a `Status`, as stored in `this.serverStatus`. -/
def statusStr : Status → String
  | .offline => "offline"
  | .starting => "starting"
  | .online => "online"
  | .stopping => "stopping"

/-- Supervisor state: the mutable fields of `MinecraftCrossplayServer`
relevant to the lifecycle, plus an explicit clock, pending timers and
logs of stdin writes and kill signals.  A process handle is modelled as
`Option Nat` where the `Nat` is a fresh instance identifier, so that
distinct spawned processes are distinguishable. -/
structure SupState where
  now : Nat
  minecraftProcess : Option Nat
  nextPid : Nat
  serverStatus : Status
  serverReady : Bool
  startTime : Option Nat
  restartAttempts : Nat
  memoryMonitor : Bool
  killTimers : List Nat
  restartTimers : List Nat
  killed : List (Nat × String)
  writes : List String
deriving DecidableEq

/-- Constructor state of `MinecraftCrossplayServer` (lines 10-28 of
`src/server.js`). -/
def initState : SupState :=
  { now := 0, minecraftProcess := none, nextPid := 0,
    serverStatus := .offline, serverReady := false, startTime := none,
    restartAttempts := 0, memoryMonitor := false,
    killTimers := [], restartTimers := [], killed := [], writes := [] }

/-- Whether the first character list starts the second. -/
def charLead : List Char → List Char → Bool
  | [], _ => true
  | _ :: _, [] => false
  | p :: ps, c :: cs => p == c && charLead ps cs

/-- Whether `pat` occurs as a contiguous sublist of the second list. -/
def charSub (pat : List Char) : List Char → Bool
  | [] => charLead pat []
  | c :: rest => charLead pat (c :: rest) || charSub pat rest

/-- JavaScript `msg.includes(pat)`: substring occurrence test. -/
def containsSub (msg pat : String) : Bool :=
  charSub pat.data msg.data

/-- Readiness test of the stdout handler (line 507 of `src/server.js`):
the message must include both `Done (` and `For help, type "help"`. -/
def isReadinessLine (msg : String) : Bool :=
  containsSub msg ("Done (") && containsSub msg ("For help, type \"help\"")

/-- Embedding of `startMinecraftServer` (lines 453-501): early return when
a process handle already exists, otherwise set status `starting`, clear
readiness, record the start time, and spawn a fresh process instance. -/
def startMinecraftServer (s : SupState) : SupState :=
  if s.minecraftProcess.isSome then s
  else
    { s with serverStatus := .starting, serverReady := false,
             startTime := some s.now,
             minecraftProcess := some s.nextPid, nextPid := s.nextPid + 1 }

/-- Embedding of the stdout `data` handler (lines 503-524): on a line
matching the readiness marker, set status `online`, `serverReady`, reset
`restartAttempts` and start memory monitoring; any other line (including
the Geyser informational branch) leaves the state unchanged. -/
def onStdoutData (msg : String) (s : SupState) : SupState :=
  if isReadinessLine msg then
    { s with serverStatus := .online, serverReady := true,
             restartAttempts := 0, memoryMonitor := true }
  else s

/-- Embedding of the process `error` handler (lines 534-539): status
`offline`, readiness and start time cleared.  The handler does not touch
`this.minecraftProcess`, the memory monitor or any timer. -/
def onError (s : SupState) : SupState :=
  { s with serverStatus := .offline, serverReady := false, startTime := none }

/-- Embedding of the process `close` handler (lines 541-567): clear the
handle, status `offline`, clear readiness and start time, stop memory
monitoring; on nonzero exit code with `restartAttempts < 2` increment the
counter and schedule a relaunch 30000 ms from now, on nonzero code with
the counter exhausted do nothing more, and on zero code reset the
counter. -/
def onClose (code : Int) (s : SupState) : SupState :=
  if code ≠ 0 then
    if s.restartAttempts < 2 then
      { s with minecraftProcess := none, serverStatus := .offline,
               serverReady := false, startTime := none, memoryMonitor := false,
               restartAttempts := s.restartAttempts + 1,
               restartTimers := (s.now + 30000) :: s.restartTimers }
    else
      { s with minecraftProcess := none, serverStatus := .offline,
               serverReady := false, startTime := none, memoryMonitor := false }
  else
    { s with minecraftProcess := none, serverStatus := .offline,
             serverReady := false, startTime := none, memoryMonitor := false,
             restartAttempts := 0 }

/-- Embedding of `stopMinecraftServer` (lines 589-611): guarded on the
process handle; sets status `stopping`, stops memory monitoring, writes
`stop\n` to stdin when the write succeeds (`stdinOk`) or sends `SIGTERM`
when it throws, and schedules the forced-kill timeout 15000 ms from now.
The timeout is never cancelled by this function or any other. -/
def stopMinecraftServer (stdinOk : Bool) (s : SupState) : SupState :=
  match s.minecraftProcess with
  | none => s
  | some pid =>
    if stdinOk then
      { s with serverStatus := .stopping, memoryMonitor := false,
               writes := s.writes ++ ["stop\n"],
               killTimers := s.killTimers ++ [s.now + 15000] }
    else
      { s with serverStatus := .stopping, memoryMonitor := false,
               killed := s.killed ++ [(pid, "SIGTERM")],
               killTimers := s.killTimers ++ [s.now + 15000] }

/-- Embedding of `executeCommand` (lines 613-622): writes the command
followed by a newline to stdin iff the handle exists, `serverReady` is
set, the command is nonempty and its length is below 100. -/
def executeCommand (c : String) (s : SupState) : SupState :=
  if s.minecraftProcess.isSome = true ∧ s.serverReady = true ∧
     c ≠ "" ∧ c.length < 100 then
    { s with writes := s.writes ++ [c ++ "\n"] }
  else s

/-- HTTP response shape `{success, message, status?}` used by the
`/start`, `/stop` and `/command` routes. -/
structure Resp where
  success : Bool
  message : String
  status : Option String
deriving DecidableEq

/-- Embedding of the `POST /start` route (lines 313-327). -/
def startRoute (s : SupState) : SupState × Resp :=
  if s.serverStatus = .starting ∨ s.serverStatus = .online then
    (s, ⟨false, "Server is already starting or running", none⟩)
  else
    (startMinecraftServer s,
     ⟨true, "Server is starting with memory optimization...", some ("starting")⟩)

/-- Embedding of the `POST /stop` route (lines 329-343). -/
def stopRoute (stdinOk : Bool) (s : SupState) : SupState × Resp :=
  if s.serverStatus = .offline then
    (s, ⟨false, "Server is already offline", none⟩)
  else
    (stopMinecraftServer stdinOk s,
     ⟨true, "Server is stopping...", some ("stopping")⟩)

/-- JavaScript truthiness of the `command` field of the request body: absent
and empty-string are both falsy. -/
def cmdTruthy : Option String → Bool
  | none => false
  | some c => c != ""

/-- Embedding of the `POST /command` route (lines 345-359): rejects when
the status is not `online` or the command is falsy; otherwise calls
`executeCommand` and reports success unconditionally. -/
def commandRoute (cmd : Option String) (s : SupState) : SupState × Resp :=
  if s.serverStatus ≠ .online ∨ cmdTruthy cmd = false then
    (s, ⟨false, "Server must be online and command must be provided", none⟩)
  else
    (executeCommand (cmd.getD ("")) s,
     ⟨true, "Command executed: " ++ cmd.getD (""), none⟩)

/-- Response shape of `GET /status` (lines 295-311), restricted to the
lifecycle-relevant fields. -/
structure StatusResp where
  status : String
  running : Bool
  ready : Bool
  uptime : Nat
deriving DecidableEq

/-- Embedding of the `GET /status` route: a pure read of the state. -/
def statusRoute (s : SupState) : StatusResp :=
  { status := statusStr s.serverStatus,
    running := s.minecraftProcess.isSome,
    ready := s.serverReady,
    uptime := match s.startTime with
              | some t => (s.now - t) / 1000
              | none => 0 }

/-- Body of the forced-kill `setTimeout` callback (lines 604-609): at
fire time, if a process handle is present, send it `SIGKILL`; the
callback holds no reference to the process that was being stopped. -/
def killTimerCb (s : SupState) : SupState :=
  match s.minecraftProcess with
  | some pid => { s with killed := s.killed ++ [(pid, "SIGKILL")] }
  | none => s

/-- Firing of a pending forced-kill timer with deadline `d`. -/
def fireKill (d : Nat) (s : SupState) : SupState :=
  killTimerCb { s with killTimers := s.killTimers.erase d }

/-- Firing of a pending auto-restart timer (lines 557-559): the callback
calls `startMinecraftServer`. -/
def fireRestart (d : Nat) (s : SupState) : SupState :=
  startMinecraftServer { s with restartTimers := s.restartTimers.erase d }

/-- Events the supervisor handles: the three mutating HTTP routes, the
three child-process events, clock advance, and timer firings. -/
inductive Ev
  | startCall
  | stopCall (stdinOk : Bool)
  | commandCall (cmd : Option String)
  | stdoutLine (msg : String)
  | procError
  | procClose (code : Int)
  | tick (d : Nat)
  | killFire (d : Nat)
  | restartFire (d : Nat)
deriving DecidableEq

/-- State transformer of each event. -/
def step : Ev → SupState → SupState
  | .startCall, s => (startRoute s).1
  | .stopCall ok, s => (stopRoute ok s).1
  | .commandCall c, s => (commandRoute c s).1
  | .stdoutLine msg, s => onStdoutData msg s
  | .procError, s => onError s
  | .procClose code, s => onClose code s
  | .tick d, s => { s with now := s.now + d }
  | .killFire d, s => fireKill d s
  | .restartFire d, s => fireRestart d s

/-- Deliverability of an event: child-process events require a live
handle, and a timer can only fire if it is pending and due. -/
def enabled : Ev → SupState → Bool
  | .stdoutLine _, s => s.minecraftProcess.isSome
  | .procError, s => s.minecraftProcess.isSome
  | .procClose _, s => s.minecraftProcess.isSome
  | .killFire d, s => s.killTimers.contains d && decide (d ≤ s.now)
  | .restartFire d, s => s.restartTimers.contains d && decide (d ≤ s.now)
  | _, _ => true

/-- States reachable from the constructor state by deliverable events. -/
inductive Reachable : SupState → Prop
  | base : Reachable initState
  | next {s : SupState} (e : Ev) :
      Reachable s → enabled e s = true → Reachable (step e s)

/-- Run a list of events in order. -/
def run : List Ev → SupState → SupState
  | [], s => s
  | e :: es, s => run es (step e s)

/-- All events of the list are deliverable along the run. -/
def allEnabled : List Ev → SupState → Bool
  | [], _ => true
  | e :: es, s => enabled e s && allEnabled es (step e s)

/-- The biconditional of spec §3: a process handle exists iff the
lifecycle state is not `Offline`. -/
def BiInv (s : SupState) : Prop :=
  s.minecraftProcess.isSome = true ↔ s.serverStatus ≠ .offline

/-- Auxiliary invariant of reachable states: `online` implies
`serverReady`, and any non-`offline` status implies a live handle. -/
def StateInv (s : SupState) : Prop :=
  (s.serverStatus = .online → s.serverReady = true) ∧
  (s.serverStatus ≠ .offline → s.minecraftProcess.isSome = true)

/-- Concrete stdout line matching the readiness marker. -/
def readyLine : String := "Done (12.345s)! For help, type \"help\""

/-- Concrete command text of length exactly 100. -/
def bigCmd : String := String.mk (List.replicate 100 'a')

/-- State after a successful `start()` from the constructor state. -/
def startedState : SupState := run [.startCall] initState

/-- State after `start()` followed by the readiness line. -/
def onlineState : SupState := run [.startCall, .stdoutLine readyLine] initState

/-- State after `start()`, readiness, then `stop()`. -/
def stoppingState : SupState :=
  run [.startCall, .stdoutLine readyLine, .stopCall true] initState

/-- State after `start()` followed by a spawn-failure `error` event. -/
def errorState : SupState := run [.startCall, .procError] initState

/-- Three consecutive crashes: the first two schedule automatic
relaunches (which fire), the third finds the counter exhausted. -/
def c3crashEvents : List Ev :=
  [.startCall, .procClose 1, .tick 30000, .restartFire 30000,
   .procClose 1, .tick 30000, .restartFire 60000, .procClose 1]

/-- State after three consecutive nonzero exits with relaunches. -/
def c3final : SupState := run c3crashEvents initState

/-- Scenario for the escalation timer: `start()`, `stop()` (scheduling a
kill at t = 15000), clean exit at t = 1000, a fresh `start()`, then the
stale timer fires at t = 15000. -/
def c4killEvents : List Ev :=
  [.startCall, .stopCall true, .tick 1000, .procClose 0,
   .startCall, .tick 14000, .killFire 15000]

/-- State after the stale-escalation-timer scenario. -/
def c4final : SupState := run c4killEvents initState

/-- Whether an event is a process-exit or launch-error event. -/
def isExitEv : Ev → Bool
  | .procError => true
  | .procClose _ => true
  | _ => false

theorem reachable_run (es : List Ev) (s : SupState) (hs : Reachable s)
    (h : allEnabled es s = true) : Reachable (run es s) := by
  induction es generalizing s with
  | nil => exact hs
  | cons e es ih =>
    rw [allEnabled, Bool.and_eq_true] at h
    exact ih (step e s) (Reachable.next e hs h.1) h.2

theorem reach_started : Reachable startedState :=
  reachable_run [.startCall] initState Reachable.base (by decide)

theorem reach_online : Reachable onlineState :=
  reachable_run [.startCall, .stdoutLine readyLine] initState Reachable.base
    (by decide)

theorem reach_stopping : Reachable stoppingState :=
  reachable_run [.startCall, .stdoutLine readyLine, .stopCall true] initState
    Reachable.base (by decide)

theorem stateInv_step (e : Ev) (s : SupState) (he : enabled e s = true)
    (h : StateInv s) : StateInv (step e s) := by
  obtain ⟨h1, h2⟩ := h
  cases e with
  | startCall =>
    simp only [step, startRoute]
    split
    · exact ⟨h1, h2⟩
    · simp only [startMinecraftServer]
      split
      · exact ⟨h1, h2⟩
      · exact ⟨by intro hc; simp at hc, by intro _; simp⟩
  | stopCall ok =>
    simp only [step, stopRoute]
    split
    · exact ⟨h1, h2⟩
    · rename_i hoff
      rcases hp : s.minecraftProcess with _ | pid
      · simp [stopMinecraftServer, hp]
        exact ⟨h1, h2⟩
      · simp only [stopMinecraftServer, hp]
        split <;>
          exact ⟨by intro hc; simp at hc, by intro _; simp⟩
  | commandCall c =>
    simp only [step, commandRoute]
    split
    · exact ⟨h1, h2⟩
    · simp only [executeCommand]
      split
      · exact ⟨by intro hc; simp at hc; exact h1 hc,
               by intro hc; simp at hc; exact h2 hc⟩
      · exact ⟨h1, h2⟩
  | stdoutLine msg =>
    simp only [step, onStdoutData]
    split
    · refine ⟨by intro _; simp, by intro _; simp only; exact he⟩
    · exact ⟨h1, h2⟩
  | procError =>
    simp only [step, onError]
    exact ⟨by intro hc; simp at hc, by intro hc; simp at hc⟩
  | procClose code =>
    simp only [step, onClose]
    split
    · split <;>
        exact ⟨by intro hc; simp at hc, by intro hc; simp at hc⟩
    · exact ⟨by intro hc; simp at hc, by intro hc; simp at hc⟩
  | tick d =>
    exact ⟨h1, h2⟩
  | killFire d =>
    simp only [step, fireKill, killTimerCb]
    rcases hp : s.minecraftProcess with _ | pid <;> simp only
    · exact ⟨by intro hc; simp only at hc; exact h1 hc,
             by intro hc; have := h2 hc; simp [hp] at this⟩
    · exact ⟨by intro hc; simp only at hc; exact h1 hc,
             by intro _; simp [hp]⟩
  | restartFire d =>
    simp only [step, fireRestart, startMinecraftServer]
    split
    · rename_i hp
      simp only [Option.isSome] at hp
      exact ⟨by intro hc; exact h1 hc, by intro _; simpa using hp⟩
    · exact ⟨by intro hc; simp at hc, by intro _; simp⟩

theorem reachable_stateInv {s : SupState} (h : Reachable s) : StateInv s := by
  induction h with
  | base => exact ⟨by intro hc; simp [initState] at hc,
                   by intro hc; simp [initState] at hc⟩
  | next e hs he ih => exact stateInv_step e _ he ih

/-- C1: the claim asserts that at every reachable state the process
handle is non-null iff the state is in {Starting, Online, Stopping}, and
that every event, including the launch-failure `error` event,
preserves this biconditional.  Counterexample: after `start()` followed
by the `error` event, the state is reachable, the status is `offline`,
yet the handle is still `some 0` — the `error` handler never clears
`this.minecraftProcess`. -/
theorem c1_counterexample :
    Reachable errorState ∧ errorState.serverStatus = Status.offline ∧
      errorState.minecraftProcess = some 0 :=
  ⟨reachable_run [.startCall, .procError] initState Reachable.base (by decide),
   by decide, by decide⟩

/-- C1 (amended): one direction of the biconditional is a true invariant
of every reachable state — a non-`offline` status implies a live handle
— and the full biconditional is preserved by every deliverable event
except the launch-failure `error` event, which sets the status to
`offline` while leaving the handle non-null. -/
theorem c1_amended :
    (∀ s : SupState, Reachable s → s.serverStatus ≠ Status.offline →
      s.minecraftProcess.isSome = true) ∧
    (∀ (e : Ev) (s : SupState), e ≠ Ev.procError → enabled e s = true →
      BiInv s → BiInv (step e s)) := by
  constructor
  · intro s hr
    exact (reachable_stateInv hr).2
  · intro e s hne he hb
    cases e with
    | startCall =>
      simp only [step, startRoute]
      split
      · exact hb
      · simp only [startMinecraftServer]
        split
        · exact hb
        · simp [BiInv]
    | stopCall ok =>
      simp only [step, stopRoute]
      split
      · exact hb
      · rcases hp : s.minecraftProcess with _ | pid
        · simp only [stopMinecraftServer, hp]
          exact hb
        · simp only [stopMinecraftServer, hp]
          split <;> simp [BiInv]
    | commandCall c =>
      simp only [step, commandRoute]
      split
      · exact hb
      · simp only [executeCommand]
        split
        · exact hb
        · exact hb
    | stdoutLine msg =>
      simp only [step, onStdoutData]
      split
      · exact ⟨fun _ => by simp, fun _ => he⟩
      · exact hb
    | procError => exact absurd rfl hne
    | procClose code =>
      simp only [step, onClose]
      split
      · split <;> simp [BiInv]
      · simp [BiInv]
    | tick d => exact hb
    | killFire d =>
      simp only [step, fireKill, killTimerCb]
      rcases hp : s.minecraftProcess with _ | pid <;> simp only [hp]
      · simpa [BiInv, hp] using hb
      · simpa [BiInv, hp] using hb
    | restartFire d =>
      simp only [step, fireRestart, startMinecraftServer]
      split
      · exact hb
      · rename_i hp
        simp only [Option.isSome] at hp
        simp [BiInv]

theorem c1_witness :
    startedState.minecraftProcess.isSome = true ∧
      BiInv (step Ev.startCall initState) :=
  ⟨c1_amended.1 startedState reach_started (by decide),
   c1_amended.2 Ev.startCall initState (by decide) (by decide)
     (by simp [BiInv, initState])⟩

/-- C2: the claim asserts that a readiness-marker line causes the Ready
transition only when the state is `Starting`, and that a matching line
arriving in any other state causes no state change.  Counterexample: in
the reachable state reached by `start()`, readiness, `stop()` — whose
status is `stopping` — a second matching line flips the status back to
`online` and restarts the memory monitor, because the stdout handler has
no state guard. -/
theorem c2_counterexample :
    Reachable stoppingState ∧ stoppingState.serverStatus = Status.stopping ∧
    isReadinessLine readyLine = true ∧
    (step (Ev.stdoutLine readyLine) stoppingState).serverStatus =
      Status.online ∧
    (step (Ev.stdoutLine readyLine) stoppingState).memoryMonitor = true :=
  ⟨reach_stopping, by decide, by decide, by decide, by decide⟩

/-- C2 (amended): a line matching the readiness marker always performs
the Ready transition — status `online`, `serverReady := true`,
`restartAttempts := 0`, memory monitoring started — regardless of the
state it arrives in (in particular it does so when the state is
`Starting`, as the claim says, but also in every other state in which a
line can be delivered); a non-matching line changes nothing. -/
theorem c2_amended : ∀ (msg : String) (s : SupState),
    (isReadinessLine msg = true →
      onStdoutData msg s =
        { s with serverStatus := .online, serverReady := true,
                 restartAttempts := 0, memoryMonitor := true }) ∧
    (isReadinessLine msg = false → onStdoutData msg s = s) := by
  intro msg s
  constructor <;> intro h <;> simp [onStdoutData, h]

theorem c2_witness :
    onStdoutData readyLine startedState =
      { startedState with serverStatus := .online, serverReady := true,
                          restartAttempts := 0, memoryMonitor := true } :=
  (c2_amended readyLine startedState).1 (by decide)

/-- C3: on a nonzero process exit with `restartAttempts < 2` the
supervisor increments the counter and schedules a relaunch exactly
30000 ms after the exit; with the counter at 2 or more it schedules
nothing and the state is `offline` with the counter unchanged.  After
two crashes with automatic relaunches, the third crash leaves no pending
relaunch timer, and from that state every deliverable event other than a
manual `start()` keeps the status `offline` with no pending relaunch. -/
theorem c3_crash_recovery :
    (∀ (s : SupState) (code : Int), code ≠ 0 → s.restartAttempts < 2 →
      (onClose code s).restartAttempts = s.restartAttempts + 1 ∧
      (onClose code s).restartTimers = (s.now + 30000) :: s.restartTimers) ∧
    (∀ (s : SupState) (code : Int), code ≠ 0 → 2 ≤ s.restartAttempts →
      (onClose code s).restartTimers = s.restartTimers ∧
      (onClose code s).serverStatus = Status.offline ∧
      (onClose code s).restartAttempts = s.restartAttempts) ∧
    (c3final.serverStatus = Status.offline ∧ c3final.restartAttempts = 2 ∧
      c3final.restartTimers = []) ∧
    (∀ (s : SupState) (e : Ev), s.serverStatus = Status.offline →
      s.minecraftProcess = none → s.restartTimers = [] →
      e ≠ Ev.startCall → enabled e s = true →
      (step e s).serverStatus = Status.offline ∧
      (step e s).minecraftProcess = none ∧
      (step e s).restartTimers = []) := by
  refine ⟨?_, ?_, by refine ⟨by decide, by decide, by decide⟩, ?_⟩
  · intro s code hc hl
    simp [onClose, hc, hl]
  · intro s code hc hl
    simp [onClose, hc, Nat.not_lt.mpr hl]
  · intro s e hst hp ht hne he
    cases e with
    | startCall => exact absurd rfl hne
    | stopCall ok =>
      simp only [step, stopRoute, hst]
      simp [hst, hp, ht]
    | commandCall c =>
      simp only [step, commandRoute]
      split
      · exact ⟨hst, hp, ht⟩
      · rename_i hg
        rw [not_or, not_ne_iff] at hg
        rw [hst] at hg
        exact absurd hg.1 (by decide)
    | stdoutLine msg =>
      rw [enabled, hp] at he
      simp at he
    | procError =>
      rw [enabled, hp] at he
      simp at he
    | procClose code =>
      rw [enabled, hp] at he
      simp at he
    | tick d => exact ⟨hst, hp, ht⟩
    | killFire d =>
      simp [step, fireKill, killTimerCb, hst, hp, ht]
    | restartFire d =>
      rw [enabled, ht] at he
      simp at he

theorem c3_witness :
    (onClose 1 initState).restartAttempts = initState.restartAttempts + 1 ∧
    (step (Ev.tick 5) c3final).serverStatus = Status.offline :=
  ⟨(c3_crash_recovery.1 initState 1 (by decide) (by decide)).1,
   (c3_crash_recovery.2.2.2 c3final (Ev.tick 5) (by decide) (by decide)
     (by decide) (by decide) (by decide)).1⟩

/-- C4: the claim asserts that the escalation timer of `stop()` is cancelled
when the process exits on its own, so that the forceful kill never fires
against a nonexistent or newly-restarted process.  Counterexample: the
reachable trace `start()` (spawning process 0), `stop()` at t = 0, exit
of process 0 at t = 1000, `start()` (spawning process 1), then the
never-cancelled timer fires at t = 15000 and delivers `SIGKILL` to the
newly-restarted process 1. -/
theorem c4_counterexample :
    Reachable c4final ∧
    startedState.minecraftProcess = some 0 ∧
    c4final.minecraftProcess = some 1 ∧
    c4final.killed = [(1, "SIGKILL")] :=
  ⟨reachable_run c4killEvents initState Reachable.base (by decide),
   by decide, by decide, by decide⟩

/-- C4 (amended): `stop()` on a live process schedules the forceful-kill
timeout exactly 15000 ms later, and the timeout is never cancelled — in
particular the process-exit handler leaves it pending.  When it fires it
sends `SIGKILL` if and only if some process handle is present at fire
time: it therefore never fires against a nonexistent process, but it can
fire against a process restarted within the escalation window. -/
theorem c4_amended :
    (∀ (s : SupState) (pid : Nat) (ok : Bool), s.minecraftProcess = some pid →
      (stopMinecraftServer ok s).killTimers =
        s.killTimers ++ [s.now + 15000]) ∧
    (∀ (s : SupState) (code : Int),
      (onClose code s).killTimers = s.killTimers) ∧
    (∀ (s : SupState) (d : Nat), s.minecraftProcess = none →
      (fireKill d s).killed = s.killed) ∧
    (∀ (s : SupState) (d : Nat) (pid : Nat), s.minecraftProcess = some pid →
      (fireKill d s).killed = s.killed ++ [(pid, "SIGKILL")]) := by
  refine ⟨?_, ?_, ?_, ?_⟩
  · intro s pid ok hp
    cases ok <;> simp [stopMinecraftServer, hp]
  · intro s code
    simp only [onClose]
    split
    · split <;> simp
    · simp
  · intro s d hp
    simp [fireKill, killTimerCb, hp]
  · intro s d pid hp
    simp [fireKill, killTimerCb, hp]

theorem c4_witness :
    (stopMinecraftServer true startedState).killTimers =
      startedState.killTimers ++ [startedState.now + 15000] ∧
    (fireKill 15000 initState).killed = initState.killed :=
  ⟨c4_amended.1 startedState 0 true (by decide),
   c4_amended.2.2.1 initState 15000 (by decide)⟩

/-- C5: every process-exit event, whatever the prior state and exit
code, sets the status to `offline`, clears `serverReady`, clears the
process handle and stops the memory monitor; when the exit code is 0 it
additionally resets `restartAttempts` to 0 and schedules no automatic
relaunch (the pending-relaunch timers are exactly those of the prior
state). -/
theorem c5_exit_handling : ∀ (s : SupState) (code : Int),
    (onClose code s).serverStatus = Status.offline ∧
    (onClose code s).serverReady = false ∧
    (onClose code s).minecraftProcess = none ∧
    (onClose code s).memoryMonitor = false ∧
    (code = 0 → (onClose code s).restartAttempts = 0 ∧
      (onClose code s).restartTimers = s.restartTimers) := by
  intro s code
  by_cases hc : code = 0
  · subst hc
    simp [onClose]
  · simp only [onClose, if_pos hc]
    split <;> simp [hc]

theorem c5_witness :
    (onClose 0 onlineState).serverStatus = Status.offline ∧
    (onClose 0 onlineState).restartAttempts = 0 ∧
    (onClose 0 onlineState).restartTimers = onlineState.restartTimers :=
  ⟨(c5_exit_handling onlineState 0).1,
   ((c5_exit_handling onlineState 0).2.2.2.2 rfl).1,
   ((c5_exit_handling onlineState 0).2.2.2.2 rfl).2⟩

/-- C6: the claim asserts that a command with missing text, or with text
of length at least 100, is reported synchronously as a structured
non-success result.  Counterexample: in a reachable `online` state, a
command of length exactly 100 is answered with `success = true` even
though it is silently dropped (no state change, no write), because the
`/command` route never checks the length — only `executeCommand` does,
and the route reports success regardless. -/
theorem c6_counterexample :
    Reachable onlineState ∧ onlineState.serverStatus = Status.online ∧
    bigCmd.length = 100 ∧
    (commandRoute (some bigCmd) onlineState).2.success = true ∧
    (commandRoute (some bigCmd) onlineState).1 = onlineState :=
  ⟨reach_online, by decide, by decide, by decide, by decide⟩

/-- C6 (amended): a command request with missing (or empty) text is
always reported as `success = false` with no state change, as is any
command request while the server is not online; but an oversized command
(length at least 100) sent while the server is online is reported as
`success = true` even though it is silently dropped without any state
change. -/
theorem c6_amended :
    (∀ (s : SupState) (cmd : Option String), cmdTruthy cmd = false →
      (commandRoute cmd s).2.success = false ∧ (commandRoute cmd s).1 = s) ∧
    (∀ (s : SupState) (cmd : Option String), s.serverStatus ≠ Status.online →
      (commandRoute cmd s).2.success = false ∧ (commandRoute cmd s).1 = s) ∧
    (∀ (s : SupState) (c : String), s.serverStatus = Status.online →
      c ≠ "" → 100 ≤ c.length →
      (commandRoute (some c) s).2.success = true ∧
      (commandRoute (some c) s).1 = s) := by
  refine ⟨?_, ?_, ?_⟩
  · intro s cmd h
    simp [commandRoute, h]
  · intro s cmd h
    simp [commandRoute, h]
  · intro s c ho hc hl
    simp [commandRoute, cmdTruthy, executeCommand, ho, hc, Nat.not_lt.mpr hl]

theorem c6_witness :
    (commandRoute none initState).2.success = false ∧
    (commandRoute none initState).1 = initState :=
  c6_amended.1 initState none (by decide)

/-- C7: at every reachable state, the command endpoint writes the given
text followed by a newline to the process stdin exactly when the status
is `online`, the process handle exists, and the text is present,
nonempty and of length below 100; in every other case (status not
`online`, text missing or empty, or length at least 100) the supervisor
state is completely unchanged, so in particular no write occurs. -/
theorem c7_sendCommand : ∀ s : SupState, Reachable s → ∀ c : String,
    ((s.serverStatus = Status.online ∧ c ≠ "" ∧ c.length < 100) →
      s.minecraftProcess.isSome = true ∧
      (commandRoute (some c) s).1 =
        { s with writes := s.writes ++ [c ++ "\n"] }) ∧
    ((s.serverStatus ≠ Status.online ∨ c = "" ∨ 100 ≤ c.length) →
      (commandRoute (some c) s).1 = s) ∧
    (commandRoute none s).1 = s := by
  intro s hr c
  obtain ⟨hor, hop⟩ := reachable_stateInv hr
  refine ⟨?_, ?_, ?_⟩
  · rintro ⟨ho, hc, hl⟩
    have hsome : s.minecraftProcess.isSome = true := hop (by rw [ho]; decide)
    have hready : s.serverReady = true := hor ho
    refine ⟨hsome, ?_⟩
    simp [commandRoute, cmdTruthy, executeCommand, ho, hc, hl, hsome, hready]
  · intro h
    by_cases ho : s.serverStatus = Status.online
    · by_cases hc : c = ""
      · simp [commandRoute, cmdTruthy, hc]
      · have hl : 100 ≤ c.length := by
          rcases h with h | h | h
          · exact absurd ho h
          · exact absurd h hc
          · exact h
        simp [commandRoute, cmdTruthy, executeCommand, ho, hc,
              Nat.not_lt.mpr hl]
    · simp [commandRoute, ho]
  · simp [commandRoute, cmdTruthy]

theorem c7_witness :
    onlineState.minecraftProcess.isSome = true ∧
    (commandRoute (some ("say hi")) onlineState).1 =
      { onlineState with writes := onlineState.writes ++ ["say hi" ++ "\n"] } :=
  (c7_sendCommand onlineState reach_online ("say hi")).1
    ⟨by decide, by decide, by decide⟩

/-- C8: `start()` issued while the status is `starting` or `online` is
answered with `success = false` and leaves the supervisor state exactly
unchanged — no process action, no state change. -/
theorem c8_already_running : ∀ s : SupState,
    s.serverStatus = Status.starting ∨ s.serverStatus = Status.online →
    (startRoute s).2.success = false ∧ (startRoute s).1 = s := by
  intro s h
  rw [startRoute, if_pos h]
  exact ⟨rfl, rfl⟩

theorem c8_witness :
    (startRoute startedState).2.success = false ∧
    (startRoute startedState).1 = startedState :=
  c8_already_running startedState (by decide)

/-- C9: `stop()` issued at a reachable `online` state sets the status to
`stopping` without clearing `serverReady`, so the status query then
reports both status `"stopping"` and `ready = true`; and `serverReady`,
once true with a live handle, is preserved by every event other than the
process-exit and launch-error events. -/
theorem c9_stop_keeps_ready :
    (∀ (s : SupState) (ok : Bool), Reachable s →
      s.serverStatus = Status.online →
      (stopRoute ok s).1.serverStatus = Status.stopping ∧
      (stopRoute ok s).1.serverReady = true ∧
      (statusRoute (stopRoute ok s).1).status = "stopping" ∧
      (statusRoute (stopRoute ok s).1).ready = true) ∧
    (∀ (s : SupState) (e : Ev), s.serverReady = true →
      s.minecraftProcess.isSome = true → isExitEv e = false →
      (step e s).serverReady = true ∧
      (step e s).minecraftProcess.isSome = true) := by
  constructor
  · intro s ok hr ho
    obtain ⟨hor, hop⟩ := reachable_stateInv hr
    have hready : s.serverReady = true := hor ho
    have hsome : s.minecraftProcess.isSome = true := hop (by rw [ho]; decide)
    rcases hp : s.minecraftProcess with _ | pid
    · rw [hp] at hsome
      simp at hsome
    · cases ok <;>
        simp [stopRoute, stopMinecraftServer, statusRoute, statusStr,
              ho, hp, hready]
  · intro s e hready hsome hex
    cases e with
    | startCall =>
      simp only [step, startRoute]
      split
      · exact ⟨hready, hsome⟩
      · simp only [startMinecraftServer, hsome]
        exact ⟨hready, hsome⟩
    | stopCall ok =>
      simp only [step, stopRoute]
      split
      · exact ⟨hready, hsome⟩
      · rcases hp : s.minecraftProcess with _ | pid
        · rw [hp] at hsome
          simp at hsome
        · cases ok <;> simp [stopMinecraftServer, hp, hready]
    | commandCall c =>
      simp only [step, commandRoute]
      split
      · exact ⟨hready, hsome⟩
      · simp only [executeCommand]
        split
        · exact ⟨hready, hsome⟩
        · exact ⟨hready, hsome⟩
    | stdoutLine msg =>
      simp only [step, onStdoutData]
      split
      · exact ⟨rfl, hsome⟩
      · exact ⟨hready, hsome⟩
    | procError => simp [isExitEv] at hex
    | procClose code => simp [isExitEv] at hex
    | tick d => exact ⟨hready, hsome⟩
    | killFire d =>
      simp only [step, fireKill, killTimerCb]
      rcases hp : s.minecraftProcess with _ | pid <;> simp only [hp]
      · rw [hp] at hsome
        simp at hsome
      · simp [hready]
    | restartFire d =>
      simp only [step, fireRestart, startMinecraftServer, hsome]
      exact ⟨hready, hsome⟩

theorem c9_witness :
    (stopRoute true onlineState).1.serverStatus = Status.stopping ∧
    (stopRoute true onlineState).1.serverReady = true ∧
    (statusRoute (stopRoute true onlineState).1).status = "stopping" ∧
    (statusRoute (stopRoute true onlineState).1).ready = true :=
  c9_stop_keeps_ready.1 onlineState true reach_online (by decide)

/-- C10: `start()` issued while the process handle is non-null but the
status is neither `starting` nor `online` (in particular while
`stopping`, or `offline` after a launch error) is answered with
`success = true` and a response claiming status `"starting"`, yet the
supervisor state is completely unchanged — no new process is spawned —
because `startMinecraftServer` returns early on a non-null handle. -/
theorem c10_start_while_stopping : ∀ s : SupState,
    s.minecraftProcess.isSome = true →
    s.serverStatus ≠ Status.starting → s.serverStatus ≠ Status.online →
    (startRoute s).2.success = true ∧
    (startRoute s).2.status = some ("starting") ∧
    (startRoute s).1 = s := by
  intro s hsome h1 h2
  have hg : ¬(s.serverStatus = Status.starting ∨
      s.serverStatus = Status.online) := by
    rintro (h | h)
    · exact h1 h
    · exact h2 h
  rw [startRoute, if_neg hg]
  refine ⟨rfl, rfl, ?_⟩
  rw [startMinecraftServer, if_pos hsome]

theorem c10_witness :
    (startRoute stoppingState).2.success = true ∧
    (startRoute stoppingState).2.status = some ("starting") ∧
    (startRoute stoppingState).1 = stoppingState :=
  c10_start_while_stopping stoppingState (by decide) (by decide) (by decide)

end MCServer
